import Mathlib

/-!
# Verification of the trading-simulation engine

Shallow embedding of the stochastic simulation engine found in
src/app/api/simulate/route.ts (deterministic seeded RNG, Box-Muller normals,
closed-form Cholesky correlation generator, GBM price-path integration with
extreme-event shocks, realized-volatility and effective-trend metrics, and the
visualization downsampler), together with proofs of the specified properties.

JS numbers are modelled with exact arithmetic: parameters and the seeded
uniform stream live in ℚ / ℤ, transcendental quantities (Box-Muller normals,
log prices) live in ℝ.  JS `%` on integers is `Int.tmod` (truncated remainder,
sign of the dividend), `Math.floor` is `Int.floor`.
-/

open scoped BigOperators

/-! ## Seeded random number generator (route.ts lines 29-44) -/

/-- One update of the linear-congruential state:
`seedState = (seedState * 9301 + 49297) % 233280`.  JS `%` on a number keeps
the dividend's sign, i.e. truncated remainder `Int.tmod`. -/
def seededRandomStep (s : ℤ) : ℤ :=
  (s * 9301 + 49297).tmod 233280

/-- `seededRandom()`: advances the state and returns `seedState / 233280`
together with the new state. -/
def seededRandom (s : ℤ) : ℚ × ℤ :=
  let s' := seededRandomStep s
  ((s' : ℚ) / 233280, s')

/-- The state after `k` calls to `seededRandom`, starting from seed `s`. -/
def stateIter (s : ℤ) : ℕ → ℤ
  | 0 => s
  | k + 1 => seededRandomStep (stateIter s k)

/-- The `while (u === 0) u = seededRandom()` resampling loop.  The generator
returns `0` exactly when its new state is `0`, and from state `0` the next
value is `49297/233280 ≠ 0`, so the source's loop runs at most twice; this
definition is extensionally the loop's behaviour from any state. -/
def drawNonzeroUniform (s : ℤ) : ℚ × ℤ :=
  let p := seededRandom s
  if p.1 = 0 then seededRandom p.2 else p

/-- `seededNormalRandom()`: Box-Muller transform
`sqrt(-2 ln u) * cos(2 π v)` from two zero-resampled uniform draws. -/
noncomputable def seededNormalRandom (s : ℤ) : ℝ × ℤ :=
  let pu := drawNonzeroUniform s
  let pv := drawNonzeroUniform pu.2
  (Real.sqrt (-2 * Real.log (pu.1 : ℝ)) * Real.cos (2 * Real.pi * (pv.1 : ℝ)), pv.2)

/-! ## Downsampler (route.ts `samplePath`, lines 290-302) -/

/-- `samplePath(path, targetLength)`: if the series is short enough it is
returned unchanged; otherwise `step = path.length / targetLength` and the
element at `Math.min(Math.floor(i * step), path.length - 1)` is selected for
each `i < targetLength`.  Over exact arithmetic
`Math.floor(i * (len / target)) = (i * len) / target` in ℕ-division. -/
def samplePath {α : Type} [Inhabited α] (path : List α) (targetLength : ℕ) : List α :=
  if path.length ≤ targetLength then path
  else (List.range targetLength).map
    (fun i => path.getD (min (i * path.length / targetLength) (path.length - 1)) default)

/-- Modelled from the spec (§4.5): the downsampler as the spec words it,
selecting positions `round(i * step)` (JS rounding, `⌊x + 1/2⌋`) and
discarding indices `≥ len`.  Used only to compare against `samplePath`. -/
def specSamplePath {α : Type} [Inhabited α] (path : List α) (targetLength : ℕ) : List α :=
  if path.length ≤ targetLength then path
  else
    (((List.range targetLength).map
        (fun (i : ℕ) => (⌊(i : ℚ) * ((path.length : ℚ) / targetLength) + 1/2⌋).toNat)).filter
      (fun idx => idx < path.length)).map (fun idx => path.getD idx default)

/-! ## Basic facts about the seeded generator -/

lemma seededRandomStep_nonneg {s : ℤ} (hs : 0 ≤ s) : 0 ≤ seededRandomStep s := by
  have h : (0 : ℤ) ≤ s * 9301 + 49297 := by positivity
  exact Int.tmod_nonneg _ h

lemma seededRandomStep_lt {s : ℤ} (hs : 0 ≤ s) : seededRandomStep s < 233280 := by
  have h : (0 : ℤ) ≤ s * 9301 + 49297 := by positivity
  unfold seededRandomStep
  rw [Int.tmod_eq_emod h (by norm_num)]
  exact Int.emod_lt_of_pos _ (by norm_num)

lemma seededRandom_val_nonneg {s : ℤ} (hs : 0 ≤ s) : 0 ≤ (seededRandom s).1 := by
  have := seededRandomStep_nonneg hs
  simp only [seededRandom]
  positivity

lemma seededRandom_val_lt_one {s : ℤ} (hs : 0 ≤ s) : (seededRandom s).1 < 1 := by
  have h := seededRandomStep_lt hs
  simp only [seededRandom]
  rw [div_lt_one (by norm_num)]
  exact_mod_cast h

lemma seededRandom_val_eq_zero_iff (s : ℤ) :
    (seededRandom s).1 = 0 ↔ seededRandomStep s = 0 := by
  simp only [seededRandom]
  constructor
  · intro h
    have := div_eq_zero_iff.mp h
    rcases this with h' | h'
    · exact_mod_cast h'
    · norm_num at h'
  · intro h
    rw [h]
    norm_num

lemma seededRandom_snd (s : ℤ) : (seededRandom s).2 = seededRandomStep s := rfl

lemma seededRandom_zero_val : (seededRandom 0).1 = 49297 / 233280 := by
  have h0 : seededRandomStep 0 = 49297 := by decide
  simp only [seededRandom, h0]
  norm_num

lemma drawNonzeroUniform_pos {s : ℤ} (hs : 0 ≤ s) :
    0 < (drawNonzeroUniform s).1 := by
  unfold drawNonzeroUniform
  by_cases h : (seededRandom s).1 = 0
  · rw [if_pos h, seededRandom_snd, (seededRandom_val_eq_zero_iff s).mp h,
      seededRandom_zero_val]
    norm_num
  · rw [if_neg h]
    exact lt_of_le_of_ne (seededRandom_val_nonneg hs) (Ne.symm h)

lemma drawNonzeroUniform_lt_one {s : ℤ} (hs : 0 ≤ s) :
    (drawNonzeroUniform s).1 < 1 := by
  unfold drawNonzeroUniform
  by_cases h : (seededRandom s).1 = 0
  · rw [if_pos h, seededRandom_snd, (seededRandom_val_eq_zero_iff s).mp h,
      seededRandom_zero_val]
    norm_num
  · rw [if_neg h]
    exact seededRandom_val_lt_one hs

lemma stateIter_nonneg {s : ℤ} (hs : 0 ≤ s) : ∀ k, 0 ≤ stateIter s k
  | 0 => hs
  | k + 1 => seededRandomStep_nonneg (stateIter_nonneg hs k)

/-- C9 invariant body, shared between the claim theorem and its witness. -/
lemma seededRandom_state_inv {s : ℤ} (hs : 0 ≤ s) (k : ℕ) :
    (0 ≤ stateIter s (k + 1) ∧ stateIter s (k + 1) < 233280) ∧
      (0 ≤ (seededRandom (stateIter s k)).1 ∧ (seededRandom (stateIter s k)).1 < 1) ∧
      (0 < (drawNonzeroUniform (stateIter s k)).1 ∧
        (drawNonzeroUniform (stateIter s k)).1 < 1) := by
  have hk := stateIter_nonneg hs k
  refine ⟨⟨stateIter_nonneg hs (k + 1), seededRandomStep_lt hk⟩,
    ⟨seededRandom_val_nonneg hk, seededRandom_val_lt_one hk⟩,
    ⟨drawNonzeroUniform_pos hk, drawNonzeroUniform_lt_one hk⟩⟩

/-- C9: with a nonnegative integer seed, after every call the LCG state stays
in `[0, 233280)` and the returned uniform value in `[0, 1)`; the
zero-resampling loop therefore feeds the Box-Muller transform values in
`(0, 1)`.  The invariant does not extend to negative seeds: from seed `-6`
the JS `%` (truncated remainder) yields a negative value. -/
theorem seededRandom_invariant :
    (∀ s : ℤ, 0 ≤ s → ∀ k : ℕ,
      (0 ≤ stateIter s (k + 1) ∧ stateIter s (k + 1) < 233280) ∧
        (0 ≤ (seededRandom (stateIter s k)).1 ∧ (seededRandom (stateIter s k)).1 < 1) ∧
        (0 < (drawNonzeroUniform (stateIter s k)).1 ∧
          (drawNonzeroUniform (stateIter s k)).1 < 1)) ∧
      (seededRandom (-6)).1 < 0 := by
  constructor
  · intro s hs k
    exact seededRandom_state_inv hs k
  · have h6 : seededRandomStep (-6) = -6509 := by decide
    simp only [seededRandom, h6]
    norm_num

/-- Witness for `seededRandom_invariant` at seed `5`, call index `2`. -/
theorem seededRandom_invariant_witness :
    (0 ≤ stateIter 5 3 ∧ stateIter 5 3 < 233280) ∧
      (0 ≤ (seededRandom (stateIter 5 2)).1 ∧ (seededRandom (stateIter 5 2)).1 < 1) ∧
      (0 < (drawNonzeroUniform (stateIter 5 2)).1 ∧
        (drawNonzeroUniform (stateIter 5 2)).1 < 1) :=
  seededRandom_invariant.1 5 (by decide) 2

/-! ## Downsampler properties -/

lemma samplePath_index_lt {len t i : ℕ} (ht : 1 ≤ t) (hlt : t < len) (hi : i < t) :
    i * len / t < len := by
  rw [Nat.div_lt_iff_lt_mul (by omega)]
  have hlen : 0 < len := by omega
  calc i * len < t * len := by
        exact (Nat.mul_lt_mul_right hlen).mpr hi
    _ = len * t := Nat.mul_comm t len

lemma samplePath_index_strictMono {len t i j : ℕ} (ht : 1 ≤ t) (hlt : t < len)
    (hij : i < j) (hj : j < t) : i * len / t < j * len / t := by
  have htpos : 0 < t := ht
  have h1 : i * len + t ≤ j * len := by
    have : (i + 1) * len ≤ j * len := Nat.mul_le_mul_right len hij
    have hlen : t + 1 ≤ len := hlt
    nlinarith
  calc i * len / t < i * len / t + 1 := Nat.lt_succ_self _
    _ = (i * len + t) / t := (Nat.add_div_right _ htpos).symm
    _ ≤ j * len / t := Nat.div_le_div_right h1

/-- C3 (amended): the downsampler returns the series unchanged when its length
is at most `targetLength`; otherwise it returns exactly the elements at the
floored positions `⌊i * step⌋ = i * len / target` (the `min` clamp never
fires), and these positions are strictly increasing and all `< len`. -/
theorem samplePath_floor_characterization {α : Type} [Inhabited α]
    (path : List α) (t : ℕ) (ht : 1 ≤ t) :
    (path.length ≤ t → samplePath path t = path) ∧
    (t < path.length →
      samplePath path t =
        (List.range t).map (fun i => path.getD (i * path.length / t) default) ∧
      (∀ i j, i < j → j < t → i * path.length / t < j * path.length / t) ∧
      (∀ i, i < t → i * path.length / t < path.length)) := by
  constructor
  · intro h
    simp only [samplePath, if_pos h]
  · intro h
    refine ⟨?_, fun i j hij hjt => samplePath_index_strictMono ht h hij hjt,
      fun i hi => samplePath_index_lt ht h hi⟩
    simp only [samplePath, if_neg (by omega : ¬ path.length ≤ t)]
    apply List.map_congr_left
    intro i hi
    have hi' : i < t := List.mem_range.mp hi
    have hidx := samplePath_index_lt ht h hi'
    have : i * path.length / t ≤ path.length - 1 := by omega
    rw [min_eq_left this]

/-- Witness for `samplePath_floor_characterization` on a concrete series. -/
theorem samplePath_floor_characterization_witness :
    (1 : ℕ) ≤ 2 ∧
      ((([10, 11, 12, 13, 14] : List ℕ).length ≤ 2 →
          samplePath [10, 11, 12, 13, 14] 2 = [10, 11, 12, 13, 14]) ∧
        (2 < ([10, 11, 12, 13, 14] : List ℕ).length →
          samplePath ([10, 11, 12, 13, 14] : List ℕ) 2 =
            (List.range 2).map
              (fun i => ([10, 11, 12, 13, 14] : List ℕ).getD
                (i * ([10, 11, 12, 13, 14] : List ℕ).length / 2) default) ∧
          (∀ i j, i < j → j < 2 →
            i * ([10, 11, 12, 13, 14] : List ℕ).length / 2 <
              j * ([10, 11, 12, 13, 14] : List ℕ).length / 2) ∧
          (∀ i, i < 2 →
            i * ([10, 11, 12, 13, 14] : List ℕ).length / 2 <
              ([10, 11, 12, 13, 14] : List ℕ).length))) :=
  ⟨by decide, samplePath_floor_characterization [10, 11, 12, 13, 14] 2 (by decide)⟩

/-- C3 counterexample: on the 7-element series sampled to 2 points the code
selects the floored positions `[0, 3]` while the spec's rounded positions are
`[0, 4]`, so the claimed rounded-position selection is false. -/
theorem samplePath_round_counterexample :
    samplePath ([10, 11, 12, 13, 14, 15, 16] : List ℕ) 2 ≠
      specSamplePath ([10, 11, 12, 13, 14, 15, 16] : List ℕ) 2 := by
  have hcode : samplePath ([10, 11, 12, 13, 14, 15, 16] : List ℕ) 2 = [10, 13] := by decide
  have hspec : specSamplePath ([10, 11, 12, 13, 14, 15, 16] : List ℕ) 2 = [10, 14] := by
    unfold specSamplePath
    rw [if_neg (by decide),
      show ([10, 11, 12, 13, 14, 15, 16] : List ℕ).length = 7 from by decide,
      show List.range 2 = ([0, 1] : List ℕ) from by decide]
    simp only [List.map_cons, List.map_nil]
    norm_num
    decide
  rw [hcode, hspec]
  decide

/-- C10: for every target length `≥ 1` the downsampled series has the same
first element as the original series (index `0` is always selected), so the
stored price matrix preserves each asset's exact initial price. -/
theorem samplePath_preserves_head {α : Type} [Inhabited α]
    (path : List α) (t : ℕ) (ht : 1 ≤ t) :
    (samplePath path t).head? = path.head? := by
  unfold samplePath
  by_cases h : path.length ≤ t
  · rw [if_pos h]
  · rw [if_neg h]
    push_neg at h
    obtain ⟨t', rfl⟩ : ∃ t', t = t' + 1 := ⟨t - 1, by omega⟩
    obtain ⟨a, rest, rfl⟩ : ∃ a rest, path = a :: rest := by
      cases path with
      | nil => simp at h
      | cons a rest => exact ⟨a, rest, rfl⟩
    rw [List.range_succ_eq_map]
    simp

/-- Witness for `samplePath_preserves_head` on a concrete series. -/
theorem samplePath_preserves_head_witness :
    (samplePath ([7, 8, 9] : List ℕ) 2).head? = ([7, 8, 9] : List ℕ).head? :=
  samplePath_preserves_head [7, 8, 9] 2 (by decide)

/-! ## Correlated multivariate normal generator
(route.ts `generateMultivariateNormal`, lines 164-221)

The source's `randomGenerator` parameter is modelled as an arbitrary stateful
generator `g : σ → ℝ × σ`; in the orchestrator it is instantiated with
`seededNormalRandom`.  The `while (u === 0)` retry loop over an arbitrary
real-valued generator is modelled with a retry bound `fuel` (the source loops
until a nonzero value appears; `fuel` bounds the number of retries, and the
definitions below agree with the source whenever a nonzero draw occurs within
`fuel` retries). -/

/-- The `while (u === 0) u = randomGenerator()` loop: draw, retry while zero,
up to `fuel` retries. -/
noncomputable def drawNonzero {σ : Type} (g : σ → ℝ × σ) : ℕ → σ → ℝ × σ
  | 0, s => g s
  | fuel + 1, s =>
    let p := g s
    if p.1 = 0 then drawNonzero g fuel p.2 else p

/-- One Box-Muller variate `sqrt(-2 ln u) * cos(2 π v)` built from two
zero-resampled draws of the supplied generator (route.ts lines 202-208). -/
noncomputable def drawZ {σ : Type} (g : σ → ℝ × σ) (fuel : ℕ) (s : σ) : ℝ × σ :=
  let pu := drawNonzero g fuel s
  let pv := drawNonzero g fuel pu.2
  (Real.sqrt (-2 * Real.log pu.1) * Real.cos (2 * Real.pi * pv.1), pv.2)

/-- The vector `z` of `n` Box-Muller variates drawn in order. -/
noncomputable def drawZs {σ : Type} (g : σ → ℝ × σ) (fuel : ℕ) : ℕ → σ → List ℝ × σ
  | 0, s => ([], s)
  | n + 1, s =>
    let pz := drawZ g fuel s
    let rest := drawZs g fuel n pz.2
    (pz.1 :: rest.1, rest.2)

/-- The covariance matrix built (and never read) by the source
(route.ts lines 171-182): `variance` on the diagonal, `covariance` off it. -/
def covMatrixEntry (variance covariance : ℝ) (i j : ℕ) : ℝ :=
  if i = j then variance else covariance

/-- The closed-form lower-triangular factor built by route.ts lines 185-198:
all entries start at zero, then `L[0][0] = sqrt(variance)`, and for each row
`i ≥ 1`, `L[i][0] = sqrt(max(0, covariance))` and
`L[i][i] = sqrt(max(0, variance - covariance))`. -/
noncomputable def cholL (variance covariance : ℝ) (i j : ℕ) : ℝ :=
  if i = 0 then (if j = 0 then Real.sqrt variance else 0)
  else if j = 0 then Real.sqrt (max 0 covariance)
  else if j = i then Real.sqrt (max 0 (variance - covariance))
  else 0

/-- `generateMultivariateNormal(n, mean, variance, covariance, gen)`: draw `n`
Box-Muller variates and return `result[i] = mean + Σ_{j ≤ i} L[i][j] * z[j]`
(route.ts lines 211-218). -/
noncomputable def generateMultivariateNormal {σ : Type} (g : σ → ℝ × σ) (fuel n : ℕ)
    (mean variance covariance : ℝ) (s : σ) : List ℝ × σ :=
  let pz := drawZs g fuel n s
  ((List.range n).map
      (fun i => mean + ∑ j in Finset.range (i + 1),
        cholL variance covariance i j * pz.1.getD j 0),
    pz.2)

/-- Modelled from the spec (§4.2 and claim C5): the generator described by the
spec's words, returning `mean + L·Z` with the closed-form matrix
`L[0][0] = sqrt(variance)`, `L[i][0] = sqrt(covariance)`,
`L[i][i] = sqrt(max(0, variance - covariance))` for `i ≥ 1`, all other entries
zero.  Used to compare against `generateMultivariateNormal`. -/
noncomputable def specMultivariateNormal {σ : Type} (g : σ → ℝ × σ) (fuel n : ℕ)
    (mean variance covariance : ℝ) (s : σ) : List ℝ × σ :=
  let pz := drawZs g fuel n s
  ((List.range n).map
      (fun i => if i = 0 then mean + Real.sqrt variance * pz.1.getD 0 0
        else mean + (Real.sqrt covariance * pz.1.getD 0 0 +
          Real.sqrt (max 0 (variance - covariance)) * pz.1.getD i 0)),
    pz.2)

lemma rangeMap_getD {α : Type} (f : ℕ → α) {i n : ℕ} (d : α) (hi : i < n) :
    ((List.range n).map f).getD i d = f i := by
  simp [List.getD_eq_getElem?_getD, List.getElem?_map, List.getElem?_range hi]

/-- The triangular dot product collapses to at most two terms. -/
lemma cholL_row_sum (variance covariance : ℝ) (z : ℕ → ℝ) {i : ℕ} (hi : 0 < i) :
    ∑ j in Finset.range (i + 1), cholL variance covariance i j * z j =
      Real.sqrt (max 0 covariance) * z 0 +
        Real.sqrt (max 0 (variance - covariance)) * z i := by
  have hfun : ∀ j ∈ Finset.range (i + 1),
      cholL variance covariance i j * z j =
        (if j = 0 then Real.sqrt (max 0 covariance) * z 0 else 0) +
          (if j = i then Real.sqrt (max 0 (variance - covariance)) * z i else 0) := by
    intro j hjmem
    rcases Nat.eq_zero_or_pos j with hj0 | hjpos
    · subst hj0
      have h1 : cholL variance covariance i 0 = Real.sqrt (max 0 covariance) := by
        unfold cholL
        rw [if_neg (by omega : ¬ i = 0), if_pos rfl]
      rw [h1, if_pos rfl, if_neg (by omega : ¬ (0 : ℕ) = i)]
      ring
    · by_cases hji : j = i
      · have h1 : cholL variance covariance i j =
            Real.sqrt (max 0 (variance - covariance)) := by
          unfold cholL
          rw [if_neg (by omega : ¬ i = 0), if_neg (by omega : ¬ j = 0), if_pos hji]
        rw [h1, if_neg (by omega : ¬ j = 0), if_pos hji, hji]
        ring
      · have h1 : cholL variance covariance i j = 0 := by
          unfold cholL
          rw [if_neg (by omega : ¬ i = 0), if_neg (by omega : ¬ j = 0), if_neg hji]
        rw [h1, if_neg (by omega : ¬ j = 0), if_neg hji]
        ring
  rw [Finset.sum_congr rfl hfun, Finset.sum_add_distrib,
    Finset.sum_ite_eq' (Finset.range (i + 1)) 0
      (fun _ => Real.sqrt (max 0 covariance) * z 0),
    Finset.sum_ite_eq' (Finset.range (i + 1)) i
      (fun _ => Real.sqrt (max 0 (variance - covariance)) * z i)]
  simp

lemma cholL_row_sum_zero (variance covariance : ℝ) (z : ℕ → ℝ) :
    ∑ j in Finset.range 1, cholL variance covariance 0 j * z j =
      Real.sqrt variance * z 0 := by
  simp [cholL]

/-- C5: for every generator, draw sequence and nonnegative variance and
covariance, the code's correlated-vector generator agrees with the spec's
closed form `mean + L·Z`: component `0` is `mean + sqrt(variance)·Z₀` and
component `i ≥ 1` is
`mean + sqrt(covariance)·Z₀ + sqrt(max(0, variance-covariance))·Zᵢ`,
where `Z` are the Box-Muller variates drawn in order from the generator. -/
theorem generateMultivariateNormal_closed_form {σ : Type} (g : σ → ℝ × σ)
    (fuel n : ℕ) (mean variance covariance : ℝ) (s : σ)
    (hn : 1 ≤ n) (hv : 0 ≤ variance) (hc : 0 ≤ covariance) :
    generateMultivariateNormal g fuel n mean variance covariance s =
      specMultivariateNormal g fuel n mean variance covariance s := by
  unfold generateMultivariateNormal specMultivariateNormal
  refine Prod.ext ?_ rfl
  apply List.map_congr_left
  intro i hi
  by_cases hi0 : i = 0
  · subst hi0
    rw [cholL_row_sum_zero]
    simp
  · have hpos : 0 < i := Nat.pos_of_ne_zero hi0
    rw [cholL_row_sum _ _ _ hpos, max_eq_right hc]
    simp [hi0]

/-- Witness for `generateMultivariateNormal_closed_form` with a concrete
two-asset call on the constant generator. -/
theorem generateMultivariateNormal_closed_form_witness :
    (1 ≤ 2 ∧ (0 : ℝ) ≤ 1 ∧ (0 : ℝ) ≤ 0) ∧
      generateMultivariateNormal (fun s : Unit => (1, s)) 0 2 0 1 0 () =
        specMultivariateNormal (fun s : Unit => (1, s)) 0 2 0 1 0 () :=
  ⟨⟨by decide, zero_le_one, le_refl 0⟩,
    generateMultivariateNormal_closed_form (fun s : Unit => (1, s)) 0 2 0 1 0 ()
      (by decide) zero_le_one (le_refl 0)⟩

/-- C8: when the covariance equals the (nonnegative) variance, the
idiosyncratic term vanishes and every component of the generated vector equals
`mean + sqrt(variance) · Z₀` — all components are identical. -/
theorem generateMultivariateNormal_equal_cov_identical {σ : Type} (g : σ → ℝ × σ)
    (fuel n : ℕ) (mean variance : ℝ) (s : σ) (hv : 0 ≤ variance)
    (i : ℕ) (hi : i < n) :
    ((generateMultivariateNormal g fuel n mean variance variance s).1).getD i 0 =
      mean + Real.sqrt variance * ((drawZs g fuel n s).1.getD 0 0) := by
  unfold generateMultivariateNormal
  rw [rangeMap_getD _ _ hi]
  by_cases hi0 : i = 0
  · subst hi0
    rw [cholL_row_sum_zero]
  · have hpos : 0 < i := Nat.pos_of_ne_zero hi0
    rw [cholL_row_sum _ _ _ hpos, max_eq_right hv, sub_self, max_self,
      Real.sqrt_zero, zero_mul, add_zero]

/-- Witness for `generateMultivariateNormal_equal_cov_identical` with three
assets on the constant generator, at component `2`. -/
theorem generateMultivariateNormal_equal_cov_identical_witness :
    ((0 : ℝ) ≤ 1 ∧ 2 < 3) ∧
      ((generateMultivariateNormal (fun s : Unit => (1, s)) 0 3 5 1 1 ()).1).getD 2 0 =
        5 + Real.sqrt 1 * ((drawZs (fun s : Unit => (1, s)) 0 3 ()).1.getD 0 0) :=
  ⟨⟨zero_le_one, by decide⟩,
    generateMultivariateNormal_equal_cov_identical (fun s : Unit => (1, s)) 0 3 5 1 ()
      zero_le_one 2 (by decide)⟩

/-! ## Metrics (route.ts lines 130-138 and 224-237) -/

/-- The `logReturns` array: first differences of the log-price series
(route.ts lines 225-228). -/
noncomputable def logReturnsOf (logPrices : List ℝ) : List ℝ :=
  (List.range (logPrices.length - 1)).map
    (fun i => logPrices.getD (i + 1) 0 - logPrices.getD i 0)

/-- `mean = logReturns.reduce(...) / logReturns.length` (route.ts line 231). -/
noncomputable def sampleMean (xs : List ℝ) : ℝ := xs.sum / (xs.length : ℝ)

/-- `calculateRealizedVolatilityFromLogPrices`: sample standard deviation
(`n - 1` denominator) of the log returns, annualized by `sqrt(252)`
(route.ts lines 224-237). -/
noncomputable def calculateRealizedVolatilityFromLogPrices (logPrices : List ℝ) : ℝ :=
  Real.sqrt
      (((logReturnsOf logPrices).map
          (fun r => (r - sampleMean (logReturnsOf logPrices)) ^ 2)).sum /
        (((logReturnsOf logPrices).length : ℝ) - 1)) *
    Real.sqrt 252

/-- The effective-trend lambda of route.ts lines 134-138:
`totalReturn = last/first - 1`, `timeInYears = (length - 1) / 252`,
result `(1 + totalReturn) ^ (1 / timeInYears) - 1` (real power). -/
noncomputable def effectiveTrend (pricePath : List ℝ) : ℝ :=
  (1 + (pricePath.getD (pricePath.length - 1) 0 / pricePath.getD 0 0 - 1)) ^
      (1 / (((pricePath.length : ℝ) - 1) / 252)) -
    1

/-- C6 counterexample: on the two-point series `[100, 200]` the code
annualizes with `(length - 1)/252 = 1/252` years, giving `2^252 - 1`, while
the claim's `yearsElapsed = length/252 = 2/252` gives `2^126 - 1`. -/
theorem effectiveTrend_yearsElapsed_counterexample :
    effectiveTrend [100, 200] ≠
      ((200 : ℝ) / 100) ^ ((1 : ℝ) / ((2 : ℝ) / 252)) - 1 := by
  have hL : effectiveTrend [100, 200] = (2 : ℝ) ^ (252 : ℝ) - 1 := by
    unfold effectiveTrend
    norm_num
  have hR : ((200 : ℝ) / 100) ^ ((1 : ℝ) / ((2 : ℝ) / 252)) - 1 =
      (2 : ℝ) ^ (126 : ℝ) - 1 := by
    norm_num
  rw [hL, hR]
  have hlt : (2 : ℝ) ^ (126 : ℝ) < (2 : ℝ) ^ (252 : ℝ) := by
    rw [show (126 : ℝ) = ((126 : ℕ) : ℝ) by norm_num,
      show (252 : ℝ) = ((252 : ℕ) : ℝ) by norm_num,
      Real.rpow_natCast, Real.rpow_natCast]
    exact pow_lt_pow_right₀ one_lt_two (by norm_num)
  intro h
  have := sub_left_injective h
  exact absurd this (ne_of_gt hlt)

/-- C6 (amended): the effective trend of a stored price series equals
`(finalPrice/initialPrice)^(1/yearsElapsed) - 1` with
`yearsElapsed = (seriesLength - 1) / 252` — the code's `1 + totalReturn`
base collapses to `finalPrice/initialPrice`. -/
theorem effectiveTrend_formula (pricePath : List ℝ) :
    effectiveTrend pricePath =
      (pricePath.getD (pricePath.length - 1) 0 / pricePath.getD 0 0) ^
          (1 / (((pricePath.length : ℝ) - 1) / 252)) -
        1 := by
  unfold effectiveTrend
  rw [show (1 : ℝ) + (pricePath.getD (pricePath.length - 1) 0 / pricePath.getD 0 0 - 1) =
      pricePath.getD (pricePath.length - 1) 0 / pricePath.getD 0 0 from by ring]

/-- C2 demonstration: downsampling is not metrics-neutral.  On the
log-price series `[0, 1, 0, 1, 0, 10]` the 3-point downsample `[0, 0, 0]` has
realized volatility `0`, while the full-resolution series has positive
realized volatility, so computing the metric on the sampled series (as
route.ts lines 125-131 do) differs from computing it on the full series (as
the spec and the Python reference require). -/
theorem realizedVolatility_not_downsample_invariant :
    calculateRealizedVolatilityFromLogPrices
        (samplePath ([0, 1, 0, 1, 0, 10] : List ℝ) 3) ≠
      calculateRealizedVolatilityFromLogPrices ([0, 1, 0, 1, 0, 10] : List ℝ) := by
  have h1 : samplePath ([0, 1, 0, 1, 0, 10] : List ℝ) 3 = [0, 0, 0] := rfl
  have h2 : calculateRealizedVolatilityFromLogPrices ([0, 0, 0] : List ℝ) = 0 := by
    have hlr : logReturnsOf ([0, 0, 0] : List ℝ) = [0, 0] := by
      simp [logReturnsOf, List.range_succ]
    unfold calculateRealizedVolatilityFromLogPrices
    rw [hlr]
    simp [sampleMean]
  have hlr : logReturnsOf ([0, 1, 0, 1, 0, 10] : List ℝ) = [1, -1, 1, -1, 10] := by
    simp [logReturnsOf, List.range_succ]
  have hmean : sampleMean ([1, -1, 1, -1, 10] : List ℝ) = 2 := by
    simp [sampleMean]
    norm_num
  have h3 : calculateRealizedVolatilityFromLogPrices ([0, 1, 0, 1, 0, 10] : List ℝ) =
      Real.sqrt 21 * Real.sqrt 252 := by
    unfold calculateRealizedVolatilityFromLogPrices
    rw [hlr, hmean]
    norm_num
  rw [h1, h2, h3]
  have : 0 < Real.sqrt 21 * Real.sqrt 252 :=
    mul_pos (Real.sqrt_pos.mpr (by norm_num)) (Real.sqrt_pos.mpr (by norm_num))
  exact ne_of_lt this

/-! ## Simulation parameters and result records (src/lib/types,
route.ts lines 8-23 and 140-154) -/

/-- The parameter record destructured by the POST handler.  The seed is an
integer (spec §3); the remaining numeric fields are exact rationals; counts
and the event duration are naturals. -/
structure SimParams where
  randomSeed : ℤ
  numSimulations : ℕ
  numObservations : ℕ
  numCurrencies : ℕ
  basePrice : ℚ
  transactionFee : ℚ
  trendVariance : ℚ
  trendCovariance : ℚ
  baseVolatility : ℚ
  volatilityCovariance : ℚ
  extremeEventProbability : ℚ
  extremeEventVariance : ℚ
  extremeEventCovariance : ℚ
  extremeEventDuration : ℕ

/-- One `SimulationData` record (route.ts lines 140-148). -/
structure SimData where
  prices : List (List ℝ)
  trends : List ℝ
  volatilities : List ℝ
  extremeEvent : Bool
  extremeEventIndex : Option ℤ
  realizedVolatility : ℝ
  effectiveTrends : List ℝ

/-- The aggregate `SimulationResult` (route.ts lines 151-154). -/
structure SimulationResult where
  simulations : List SimData
  params : SimParams

/-! ## Price-path simulation (route.ts lines 66-128) -/

/-- The per-run extreme-event decision (route.ts lines 66-69):
`extremeEvent = seededRandom() < probability`, and when it fires the start
index is `Math.floor(seededRandom() * (numObservations - duration))`;
otherwise the start is `-1` and no second draw is consumed. -/
def extremeEventDraw (prob : ℚ) (numObservations extremeEventDuration : ℕ) (s : ℤ) :
    (Bool × ℤ) × ℤ :=
  let pu := seededRandom s
  if pu.1 < prob then
    let pv := seededRandom pu.2
    ((true, ⌊pv.1 * ((numObservations : ℚ) - (extremeEventDuration : ℚ))⌋), pv.2)
  else ((false, -1), pu.2)

/-- The inner `for (t = 1; t < numObservations; t++)` loop of route.ts lines
96-122, building the price path and log-price path lists with an extreme
event shock (exponentially decaying, scaled by `dt = 1/252`) while
`start ≤ t < start + duration`.  Each new price is
`Math.max(exp(newLogPrice), 0.01)`. -/
noncomputable def pathSteps (mu sigma : ℝ) (evt : Bool) (start : ℤ) (dur : ℕ)
    (shock : ℝ) : ℕ → ℕ → ℝ → ℤ → (List ℝ × List ℝ) × ℤ
  | 0, _, _, s => (([], []), s)
  | count + 1, t, prevLog, s =>
    let pn := seededNormalRandom s
    let dW := Real.sqrt (1 / 252) * pn.1
    let drift := (mu - 0.5 * sigma * sigma) * (1 / 252)
    let diffusion := sigma * dW
    let logReturn := drift + diffusion +
      (if evt ∧ start ≤ (t : ℤ) ∧ (t : ℤ) < start + (dur : ℤ) then
        shock * Real.exp (-3 * (((t : ℝ) - (start : ℝ)) / (dur : ℝ))) * (1 / 252)
      else 0)
    let newLog := prevLog + logReturn
    let rest := pathSteps mu sigma evt start dur shock count (t + 1) newLog pn.2
    ((max (Real.exp newLog) (1 / 100) :: rest.1.1, newLog :: rest.1.2), rest.2)

/-- One currency's full-resolution paths (route.ts lines 87-122): the initial
price is `basePrice * (0.5 + seededRandom())`, pushed unfloored; the log path
starts at its logarithm; then `numObservations - 1` GBM steps. -/
noncomputable def currencyPath (numObservations : ℕ) (basePrice : ℚ) (mu sigma : ℝ)
    (evt : Bool) (start : ℤ) (dur : ℕ) (shock : ℝ) (s : ℤ) :
    (List ℝ × List ℝ) × ℤ :=
  let pu := seededRandom s
  let initialPrice : ℚ := basePrice * (0.5 + pu.1)
  let rest := pathSteps mu sigma evt start dur shock (numObservations - 1) 1
    (Real.log (initialPrice : ℝ)) pu.2
  (((initialPrice : ℝ) :: rest.1.1, Real.log (initialPrice : ℝ) :: rest.1.2), rest.2)

/-- The `for (c = 0; c < numCurrencies; c++)` loop (route.ts lines 87-128):
per currency, build the full paths and push their downsampled versions
(`samplePath(path, min(500, numObservations))`) into the stored matrices. -/
noncomputable def currencyLoop (numObservations : ℕ) (basePrice : ℚ)
    (trends vols shocks : List ℝ) (evt : Bool) (start : ℤ) (dur : ℕ)
    (target : ℕ) : ℕ → ℕ → ℤ → (List (List ℝ) × List (List ℝ)) × ℤ
  | 0, _, s => (([], []), s)
  | count + 1, c, s =>
    let cp := currencyPath numObservations basePrice (trends.getD c 0)
      (vols.getD c 0) evt start dur (shocks.getD c 0) s
    let sampledPrices := samplePath cp.1.1 target
    let sampledLogs := samplePath cp.1.2 target
    let rest := currencyLoop numObservations basePrice trends vols shocks evt start
      dur target count (c + 1) cp.2
    ((sampledPrices :: rest.1.1, sampledLogs :: rest.1.2), rest.2)

/-- One iteration of the `for (sim = 0; ...)` loop (route.ts lines 46-149):
trend vector, volatility vector (absolute values), extreme-event decision,
optional shock vector, per-currency paths, and the per-run metrics — the
metrics are computed from the stored (downsampled) matrices, as the source
does. -/
noncomputable def simulateOne (P : SimParams) (fuel : ℕ) (s : ℤ) : SimData × ℤ :=
  let ptr := generateMultivariateNormal seededNormalRandom fuel P.numCurrencies 0
    (P.trendVariance : ℝ) (P.trendCovariance : ℝ) s
  let pvol := generateMultivariateNormal seededNormalRandom fuel P.numCurrencies
    ((P.baseVolatility : ℝ) / 100) (((P.baseVolatility : ℝ) / 100) ^ 2 * 0.1)
    ((P.volatilityCovariance : ℝ) / 10000) ptr.2
  let volatilityComponents := pvol.1.map (fun v => |v|)
  let pev := extremeEventDraw P.extremeEventProbability P.numObservations
    P.extremeEventDuration pvol.2
  let psh := if pev.1.1 then
      generateMultivariateNormal seededNormalRandom fuel P.numCurrencies (-0.1)
        ((P.extremeEventVariance : ℝ) / 10000) ((P.extremeEventCovariance : ℝ) / 10000)
        pev.2
    else ([], pev.2)
  let pc := currencyLoop P.numObservations P.basePrice ptr.1 volatilityComponents
    psh.1 pev.1.1 pev.1.2 P.extremeEventDuration (min 500 P.numObservations)
    P.numCurrencies 0 psh.2
  ({ prices := pc.1.1,
     trends := ptr.1,
     volatilities := volatilityComponents,
     extremeEvent := pev.1.1,
     extremeEventIndex := if pev.1.1 then some pev.1.2 else none,
     realizedVolatility :=
       calculateRealizedVolatilityFromLogPrices (pc.1.2.getD 0 []) * 100,
     effectiveTrends := pc.1.1.map effectiveTrend }, pc.2)

/-- The outer simulation loop, threading the single seeded stream through all
runs in order. -/
noncomputable def simLoop (P : SimParams) (fuel : ℕ) : ℕ → ℤ → List SimData × ℤ
  | 0, s => ([], s)
  | count + 1, s =>
    let p1 := simulateOne P fuel s
    let rest := simLoop P fuel count p1.2
    (p1.1 :: rest.1, rest.2)

/-- `Math.random`, modelled as an ambient entropy stream with a cursor.  The
POST handler never consults it (it appears only in the dead helpers below). -/
def mathRandom (ambient : ℕ → ℝ) (i : ℕ) : ℝ × ℕ := (ambient i, i + 1)

/-- Dead helper `generateNormalRandom` (route.ts lines 248-255): Box-Muller
over `Math.random`; present in the source but never called by the handler. -/
noncomputable def generateNormalRandom (ambient : ℕ → ℝ) (fuel i : ℕ) : ℝ × ℕ :=
  drawZ (mathRandom ambient) fuel i

/-- The POST entry point (route.ts lines 4-161): seeds the stream with
`randomSeed`, runs `numSimulations` runs, and returns the aggregate result.
`ambient` models the `Math.random` entropy available to the process and
`fuel` bounds the zero-retry loops. -/
noncomputable def runSimulation (P : SimParams) (fuel : ℕ) (ambient : ℕ → ℝ) :
    SimulationResult :=
  { simulations := (simLoop P fuel P.numSimulations P.randomSeed).1,
    params := P }

/-- C1: the simulation result is a pure deterministic function of the
parameter record (seed included): the entry point consults no entropy source
other than the seeded stream, so its output is bit-identical across ambient
entropy streams — and in particular across repeated evaluations. -/
theorem runSimulation_deterministic (P : SimParams) (fuel : ℕ)
    (ambient₁ ambient₂ : ℕ → ℝ) :
    runSimulation P fuel ambient₁ = runSimulation P fuel ambient₂ := rfl

/-! ## Price-positivity (C4) -/

lemma pathSteps_getD_ge_floor (mu sigma : ℝ) (evt : Bool) (start : ℤ) (dur : ℕ)
    (shock : ℝ) :
    ∀ (count t : ℕ) (prevLog : ℝ) (s : ℤ) (i : ℕ),
      1 / 100 ≤ ((pathSteps mu sigma evt start dur shock count t prevLog s).1.1).getD
        i (1 / 100)
  | 0, _, _, _, i => by
    simp [pathSteps]
  | count + 1, t, prevLog, s, 0 => by
    simp only [pathSteps, List.getD_cons_zero]
    exact le_max_right _ _
  | count + 1, t, prevLog, s, i + 1 => by
    simp only [pathSteps, List.getD_cons_succ]
    exact pathSteps_getD_ge_floor mu sigma evt start dur shock count (t + 1) _ _ i

/-- C4 (amended): every price at a time index `≥ 1` of a generated price path
is at least `0.01` — each step stores `max(exp(newLogPrice), 0.01)`.  (The
initial price at index `0` is `basePrice * (0.5 + u)`, stored unfloored; see
the counterexample.)  Out-of-range indices return the default `1/100`. -/
theorem currencyPath_tail_ge_floor (numObservations : ℕ) (basePrice : ℚ)
    (mu sigma : ℝ) (evt : Bool) (start : ℤ) (dur : ℕ) (shock : ℝ) (s : ℤ) (t : ℕ) :
    1 / 100 ≤
      ((currencyPath numObservations basePrice mu sigma evt start dur shock s).1.1).getD
        (t + 1) (1 / 100) := by
  unfold currencyPath
  simp only [List.getD_cons_succ]
  exact pathSteps_getD_ge_floor mu sigma evt start dur shock _ _ _ _ t

/-- C4 counterexample: with `basePrice = 1/1000` and seed state `0`, the
initial price stored at index `0` of the run's series is
`(1/1000) * (0.5 + 49297/233280) < 0.01`, so the claimed bound does not hold
for every element regardless of `basePrice`. -/
theorem currencyPath_initial_below_floor :
    ((currencyPath 10 (1 / 1000 : ℚ) 0 0 false (-1) 1 0 0).1.1).getD 0 0 <
      1 / 100 := by
  unfold currencyPath
  simp only [List.getD_cons_zero]
  rw [seededRandom_zero_val]
  push_cast
  norm_num

/-! ## Extreme-event index validity (C7)

The seeded state stays nonnegative through every helper, so the uniform draw
feeding the event-start computation lies in `[0, 1)`. -/

lemma drawNonzeroUniform_snd_nonneg {s : ℤ} (hs : 0 ≤ s) :
    0 ≤ (drawNonzeroUniform s).2 := by
  unfold drawNonzeroUniform
  by_cases h : (seededRandom s).1 = 0
  · rw [if_pos h, seededRandom_snd, seededRandom_snd]
    exact seededRandomStep_nonneg (seededRandomStep_nonneg hs)
  · rw [if_neg h, seededRandom_snd]
    exact seededRandomStep_nonneg hs

lemma seededNormalRandom_snd_nonneg {s : ℤ} (hs : 0 ≤ s) :
    0 ≤ (seededNormalRandom s).2 :=
  drawNonzeroUniform_snd_nonneg (drawNonzeroUniform_snd_nonneg hs)

lemma drawNonzero_snd_nonneg : ∀ (fuel : ℕ) {s : ℤ}, 0 ≤ s →
    0 ≤ (drawNonzero seededNormalRandom fuel s).2
  | 0, s, hs => seededNormalRandom_snd_nonneg hs
  | fuel + 1, s, hs => by
    unfold drawNonzero
    by_cases h : (seededNormalRandom s).1 = 0
    · rw [if_pos h]
      exact drawNonzero_snd_nonneg fuel (seededNormalRandom_snd_nonneg hs)
    · rw [if_neg h]
      exact seededNormalRandom_snd_nonneg hs

lemma drawZ_snd_nonneg (fuel : ℕ) {s : ℤ} (hs : 0 ≤ s) :
    0 ≤ (drawZ seededNormalRandom fuel s).2 :=
  drawNonzero_snd_nonneg fuel (drawNonzero_snd_nonneg fuel hs)

lemma drawZs_snd_nonneg (fuel : ℕ) : ∀ (n : ℕ) {s : ℤ}, 0 ≤ s →
    0 ≤ (drawZs seededNormalRandom fuel n s).2
  | 0, s, hs => hs
  | n + 1, s, hs => drawZs_snd_nonneg fuel n (drawZ_snd_nonneg fuel hs)

lemma generateMultivariateNormal_snd_nonneg (fuel n : ℕ)
    (mean variance covariance : ℝ) {s : ℤ} (hs : 0 ≤ s) :
    0 ≤ (generateMultivariateNormal seededNormalRandom fuel n mean variance
      covariance s).2 :=
  drawZs_snd_nonneg fuel n hs

/-- C7 (component form): under `duration < numObservations` and a nonnegative
seeded state, a fired event's start index is an integer in
`[0, numObservations - duration)`, and with no event the stored index is
`null`. -/
lemma extremeEventDraw_valid (prob : ℚ) (N dur : ℕ) {s : ℤ}
    (hs : 0 ≤ s) (hd : dur < N) :
    ((extremeEventDraw prob N dur s).1.1 = true →
      0 ≤ (extremeEventDraw prob N dur s).1.2 ∧
        (extremeEventDraw prob N dur s).1.2 < (N : ℤ) - (dur : ℤ)) ∧
      ((extremeEventDraw prob N dur s).1.1 = false →
        (if (extremeEventDraw prob N dur s).1.1 then
            some (extremeEventDraw prob N dur s).1.2
          else none) = none) := by
  unfold extremeEventDraw
  by_cases h : (seededRandom s).1 < prob
  · rw [if_pos h]
    simp only [Bool.true_eq_false, IsEmpty.forall_iff, and_true, forall_const]
    have hs1 : 0 ≤ (seededRandom s).2 := by
      rw [seededRandom_snd]
      exact seededRandomStep_nonneg hs
    have hu0 : 0 ≤ (seededRandom (seededRandom s).2).1 := seededRandom_val_nonneg hs1
    have hu1 : (seededRandom (seededRandom s).2).1 < 1 := seededRandom_val_lt_one hs1
    have hNd : (0 : ℚ) < (N : ℚ) - (dur : ℚ) := by
      have : (dur : ℚ) < (N : ℚ) := by exact_mod_cast hd
      linarith
    constructor
    · exact Int.floor_nonneg.mpr (mul_nonneg hu0 hNd.le)
    · rw [Int.floor_lt]
      push_cast
      calc (seededRandom (seededRandom s).2).1 * ((N : ℚ) - (dur : ℚ))
          < 1 * ((N : ℚ) - (dur : ℚ)) := by
            exact mul_lt_mul_of_pos_right hu1 hNd
        _ = (N : ℚ) - (dur : ℚ) := one_mul _
  · rw [if_neg h]
    simp

lemma extremeEventDraw_snd_nonneg (prob : ℚ) (N dur : ℕ) {s : ℤ} (hs : 0 ≤ s) :
    0 ≤ (extremeEventDraw prob N dur s).2 := by
  unfold extremeEventDraw
  by_cases h : (seededRandom s).1 < prob
  · rw [if_pos h]
    simp only [seededRandom_snd]
    exact seededRandomStep_nonneg (seededRandomStep_nonneg hs)
  · rw [if_neg h]
    rw [seededRandom_snd]
    exact seededRandomStep_nonneg hs

lemma pathSteps_snd_nonneg (mu sigma : ℝ) (evt : Bool) (start : ℤ) (dur : ℕ)
    (shock : ℝ) : ∀ (count t : ℕ) (prevLog : ℝ) {s : ℤ}, 0 ≤ s →
    0 ≤ (pathSteps mu sigma evt start dur shock count t prevLog s).2
  | 0, _, _, s, hs => hs
  | count + 1, t, prevLog, s, hs => by
    unfold pathSteps
    exact pathSteps_snd_nonneg mu sigma evt start dur shock count (t + 1) _
      (seededNormalRandom_snd_nonneg hs)

lemma currencyPath_snd_nonneg (numObservations : ℕ) (basePrice : ℚ)
    (mu sigma : ℝ) (evt : Bool) (start : ℤ) (dur : ℕ) (shock : ℝ) {s : ℤ}
    (hs : 0 ≤ s) :
    0 ≤ (currencyPath numObservations basePrice mu sigma evt start dur shock s).2 := by
  unfold currencyPath
  refine pathSteps_snd_nonneg mu sigma evt start dur shock _ _ _ ?_
  rw [seededRandom_snd]
  exact seededRandomStep_nonneg hs

lemma currencyLoop_snd_nonneg (numObservations : ℕ) (basePrice : ℚ)
    (trends vols shocks : List ℝ) (evt : Bool) (start : ℤ) (dur target : ℕ) :
    ∀ (count c : ℕ) {s : ℤ}, 0 ≤ s →
      0 ≤ (currencyLoop numObservations basePrice trends vols shocks evt start dur
        target count c s).2
  | 0, _, s, hs => hs
  | count + 1, c, s, hs => by
    unfold currencyLoop
    exact currencyLoop_snd_nonneg numObservations basePrice trends vols shocks evt
      start dur target count (c + 1)
      (currencyPath_snd_nonneg numObservations basePrice _ _ evt start dur _ hs)

lemma simulateOne_snd_nonneg (P : SimParams) (fuel : ℕ) {s : ℤ} (hs : 0 ≤ s) :
    0 ≤ (simulateOne P fuel s).2 := by
  unfold simulateOne
  refine currencyLoop_snd_nonneg _ _ _ _ _ _ _ _ _ _ _ ?_
  by_cases h : (extremeEventDraw P.extremeEventProbability P.numObservations
      P.extremeEventDuration
      (generateMultivariateNormal seededNormalRandom fuel P.numCurrencies
        ((P.baseVolatility : ℝ) / 100) (((P.baseVolatility : ℝ) / 100) ^ 2 * 0.1)
        ((P.volatilityCovariance : ℝ) / 10000)
        (generateMultivariateNormal seededNormalRandom fuel P.numCurrencies 0
          (P.trendVariance : ℝ) (P.trendCovariance : ℝ) s).2).2).1.1 = true
  · rw [if_pos h]
    refine generateMultivariateNormal_snd_nonneg fuel _ _ _ _ ?_
    refine extremeEventDraw_snd_nonneg _ _ _ ?_
    refine generateMultivariateNormal_snd_nonneg fuel _ _ _ _ ?_
    exact generateMultivariateNormal_snd_nonneg fuel _ _ _ _ hs
  · rw [if_neg h]
    refine extremeEventDraw_snd_nonneg _ _ _ ?_
    refine generateMultivariateNormal_snd_nonneg fuel _ _ _ _ ?_
    exact generateMultivariateNormal_snd_nonneg fuel _ _ _ _ hs

/-- The event fields of one run are exactly the event draw made at the
post-volatility state. -/
lemma simulateOne_event_fields (P : SimParams) (fuel : ℕ) (s : ℤ) :
    (simulateOne P fuel s).1.extremeEvent =
        (extremeEventDraw P.extremeEventProbability P.numObservations
          P.extremeEventDuration
          (generateMultivariateNormal seededNormalRandom fuel P.numCurrencies
            ((P.baseVolatility : ℝ) / 100) (((P.baseVolatility : ℝ) / 100) ^ 2 * 0.1)
            ((P.volatilityCovariance : ℝ) / 10000)
            (generateMultivariateNormal seededNormalRandom fuel P.numCurrencies 0
              (P.trendVariance : ℝ) (P.trendCovariance : ℝ) s).2).2).1.1 ∧
      (simulateOne P fuel s).1.extremeEventIndex =
        (if (extremeEventDraw P.extremeEventProbability P.numObservations
            P.extremeEventDuration
            (generateMultivariateNormal seededNormalRandom fuel P.numCurrencies
              ((P.baseVolatility : ℝ) / 100) (((P.baseVolatility : ℝ) / 100) ^ 2 * 0.1)
              ((P.volatilityCovariance : ℝ) / 10000)
              (generateMultivariateNormal seededNormalRandom fuel P.numCurrencies 0
                (P.trendVariance : ℝ) (P.trendCovariance : ℝ) s).2).2).1.1 then
          some (extremeEventDraw P.extremeEventProbability P.numObservations
            P.extremeEventDuration
            (generateMultivariateNormal seededNormalRandom fuel P.numCurrencies
              ((P.baseVolatility : ℝ) / 100) (((P.baseVolatility : ℝ) / 100) ^ 2 * 0.1)
              ((P.volatilityCovariance : ℝ) / 10000)
              (generateMultivariateNormal seededNormalRandom fuel P.numCurrencies 0
                (P.trendVariance : ℝ) (P.trendCovariance : ℝ) s).2).2).1.2
        else none) :=
  ⟨rfl, rfl⟩

lemma simulateOne_eventIndex_valid (P : SimParams) (fuel : ℕ) {s : ℤ}
    (hs : 0 ≤ s) (hd : P.extremeEventDuration < P.numObservations) :
    ((simulateOne P fuel s).1.extremeEvent = true →
      ∃ j : ℤ, (simulateOne P fuel s).1.extremeEventIndex = some j ∧
        0 ≤ j ∧ j < (P.numObservations : ℤ) - (P.extremeEventDuration : ℤ)) ∧
      ((simulateOne P fuel s).1.extremeEvent = false →
        (simulateOne P fuel s).1.extremeEventIndex = none) := by
  obtain ⟨hE, hI⟩ := simulateOne_event_fields P fuel s
  set s2 := (generateMultivariateNormal seededNormalRandom fuel P.numCurrencies
    ((P.baseVolatility : ℝ) / 100) (((P.baseVolatility : ℝ) / 100) ^ 2 * 0.1)
    ((P.volatilityCovariance : ℝ) / 10000)
    (generateMultivariateNormal seededNormalRandom fuel P.numCurrencies 0
      (P.trendVariance : ℝ) (P.trendCovariance : ℝ) s).2).2 with hs2def
  have hs2 : 0 ≤ s2 := by
    rw [hs2def]
    refine generateMultivariateNormal_snd_nonneg fuel _ _ _ _ ?_
    exact generateMultivariateNormal_snd_nonneg fuel _ _ _ _ hs
  obtain ⟨hvalid, hnone⟩ := extremeEventDraw_valid P.extremeEventProbability
    P.numObservations P.extremeEventDuration hs2 hd
  constructor
  · intro hev
    rw [hE] at hev
    refine ⟨(extremeEventDraw P.extremeEventProbability P.numObservations
      P.extremeEventDuration s2).1.2, ?_, hvalid hev⟩
    rw [hI, hev, if_pos rfl]
  · intro hev
    rw [hE] at hev
    rw [hI, hev]
    simp

lemma simLoop_mem_eventIndex_valid (P : SimParams) (fuel : ℕ)
    (hd : P.extremeEventDuration < P.numObservations) :
    ∀ (count : ℕ) {s : ℤ}, 0 ≤ s →
      ∀ d ∈ (simLoop P fuel count s).1,
        (d.extremeEvent = true →
          ∃ j : ℤ, d.extremeEventIndex = some j ∧
            0 ≤ j ∧ j < (P.numObservations : ℤ) - (P.extremeEventDuration : ℤ)) ∧
          (d.extremeEvent = false → d.extremeEventIndex = none)
  | 0, s, hs => by
    intro d hdmem
    simp [simLoop] at hdmem
  | count + 1, s, hs => by
    intro d hdmem
    unfold simLoop at hdmem
    rcases List.mem_cons.mp hdmem with h | h
    · subst h
      exact simulateOne_eventIndex_valid P fuel hs hd
    · exact simLoop_mem_eventIndex_valid P fuel hd count
        (simulateOne_snd_nonneg P fuel hs) d h

/-- C7: with a nonnegative seed and `duration < observationCount`, every run
of the simulation has a valid extreme-event record: when the flag is set the
start index is an integer in `[0, observationCount - duration)`, and when it
is not the stored index is `null`. -/
theorem runSimulation_eventIndex_valid (P : SimParams) (fuel : ℕ)
    (ambient : ℕ → ℝ) (hseed : 0 ≤ P.randomSeed)
    (hd : P.extremeEventDuration < P.numObservations) :
    ∀ d ∈ (runSimulation P fuel ambient).simulations,
      (d.extremeEvent = true →
        ∃ j : ℤ, d.extremeEventIndex = some j ∧
          0 ≤ j ∧ j < (P.numObservations : ℤ) - (P.extremeEventDuration : ℤ)) ∧
        (d.extremeEvent = false → d.extremeEventIndex = none) :=
  simLoop_mem_eventIndex_valid P fuel hd P.numSimulations hseed

/-- A concrete parameter record used by the event-validity witness. -/
def sampleParams : SimParams :=
  { randomSeed := 42,
    numSimulations := 2,
    numObservations := 10,
    numCurrencies := 1,
    basePrice := 100,
    transactionFee := 0,
    trendVariance := 1,
    trendCovariance := 1,
    baseVolatility := 3,
    volatilityCovariance := 1,
    extremeEventProbability := 1,
    extremeEventVariance := 500,
    extremeEventCovariance := 450,
    extremeEventDuration := 2 }

/-- Witness for `runSimulation_eventIndex_valid` at `sampleParams`. -/
theorem runSimulation_eventIndex_valid_witness :
    (0 ≤ sampleParams.randomSeed ∧
      sampleParams.extremeEventDuration < sampleParams.numObservations) ∧
      ∀ d ∈ (runSimulation sampleParams 0 (fun _ => 0)).simulations,
        (d.extremeEvent = true →
          ∃ j : ℤ, d.extremeEventIndex = some j ∧
            0 ≤ j ∧ j < (sampleParams.numObservations : ℤ) -
              (sampleParams.extremeEventDuration : ℤ)) ∧
          (d.extremeEvent = false → d.extremeEventIndex = none) :=
  ⟨⟨by decide, by decide⟩,
    runSimulation_eventIndex_valid sampleParams 0 (fun _ => 0) (by decide) (by decide)⟩
